import Mathlib

/-!
Verification of the status-line script (claude-code-status-line.py).

The script is embedded shallowly: Python dictionaries parsed from the
transcript's JSON lines become the inductive type `JVal`; Python operations
that can raise (`obj.get` on a non-dict, `len` of a number, `+` on
mismatched types, subscripting a list with a string) become `Except PyErr`
computations; the reverse scan over transcript lines becomes the recursive
function `scanRev`.  Python strings are modelled as `List Char` (one entry
per code point, matching Python `len` and slicing); JSON numbers are
modelled as `Int` (the token counts the script reads are integers); the
floating-point percentage is modelled exactly over `ℚ`.
-/

namespace StatusLine

/-- Strings of the embedded program: one `Char` per Python code point. -/
abbrev Str := List Char

/-- Key and literal strings of the script, named so that proofs treat
them as atomic values. -/
def keyType : Str := "type".toList

/-- Key "message". -/
def keyMessage : Str := "message".toList

/-- Key "content". -/
def keyContent : Str := "content".toList

/-- Key "usage". -/
def keyUsage : Str := "usage".toList

/-- Key and content-part kind "text". -/
def keyText : Str := "text".toList

/-- Key "isMeta". -/
def keyIsMeta : Str := "isMeta".toList

/-- Key "input_tokens". -/
def keyInput : Str := "input_tokens".toList

/-- Key "cache_creation_input_tokens". -/
def keyCacheCreation : Str := "cache_creation_input_tokens".toList

/-- Key "cache_read_input_tokens". -/
def keyCacheRead : Str := "cache_read_input_tokens".toList

/-- Key "output_tokens". -/
def keyOutput : Str := "output_tokens".toList

/-- Key "tag_name". -/
def keyTagName : Str := "tag_name".toList

/-- Record kind "user". -/
def strUser : Str := "user".toList

/-- Record kind "assistant". -/
def strAssistant : Str := "assistant".toList

/-- Version-status literal "current". -/
def strCurrent : Str := "current".toList

/-- Version-status literal "outdated". -/
def strOutdated : Str := "outdated".toList

/-- Fallback prompt literal. -/
def strNoPrompt : Str := "no recent prompt".toList

/-- Model-id fragment "1m". -/
def str1m : Str := "1m".toList

/-- Model-id fragment "200k". -/
def str200k : Str := "200k".toList

/-- Ellipsis appended by prompt truncation. -/
def strDots : Str := "...".toList

/-- Errors the Python interpreter can raise in the scanned region.  Only
`json.JSONDecodeError` is caught by the script's inner handler; it is
modelled separately by the `TLine.malformed` line shape, so an `.error`
of this type escapes the scan loop.  `osError` stands for the exceptions
`open`/`readlines` can raise on a transcript that exists but cannot be
read (`PermissionError`, `IsADirectoryError`, `UnicodeDecodeError`):
none of them is `FileNotFoundError`, so the handler at line 159 does not
catch them either. -/
inductive PyErr where
  | attrError
  | typeError
  | osError
deriving DecidableEq, Repr

/-- Values produced by `json.loads`: null, booleans, integers, strings,
arrays and objects (objects as association lists, duplicate keys already
resolved by the JSON parser). -/
inductive JVal where
  | jnull : JVal
  | jbool : Bool → JVal
  | jnum : Int → JVal
  | jstr : Str → JVal
  | jarr : List JVal → JVal
  | jobj : List (Str × JVal) → JVal

/-- Lookup of a key in an object's field list (first match; `json.loads`
never yields duplicate keys). -/
def jLookup : List (Str × JVal) → Str → Option JVal
  | [], _ => none
  | (k, v) :: rest, key => if k == key then some v else jLookup rest key

/-- Python `d.get(key, default)` on a field list. -/
def jGetD (fs : List (Str × JVal)) (k : Str) (d : JVal) : JVal :=
  (jLookup fs k).getD d

/-- Python `key in d` on a field list. -/
def hasKey (fs : List (Str × JVal)) (k : Str) : Bool :=
  (jLookup fs k).isSome

/-- Python `d[key]` on a field list; the script only subscripts after a
containment check, so the `.jnull` default is unreachable. -/
def jIndex (fs : List (Str × JVal)) (k : Str) : JVal :=
  jGetD fs k .jnull

/-- Python `v == "s"` for a string literal right-hand side: strings compare
by content, every other type compares unequal. -/
def isStrVal : JVal → Str → Bool
  | .jstr t, s => t == s
  | _, _ => false

/-- Python truthiness of a JSON value. -/
def truthy : JVal → Bool
  | .jnull => false
  | .jbool b => b
  | .jnum n => n != 0
  | .jstr s => !s.isEmpty
  | .jarr xs => !xs.isEmpty
  | .jobj fs => !fs.isEmpty

/-- Python `obj.get(key, default)`: raises `AttributeError` unless `obj`
is a dict. -/
def pyGet (obj : JVal) (k : Str) (d : JVal) : Except PyErr JVal :=
  match obj with
  | .jobj fs => .ok (jGetD fs k d)
  | _ => .error .attrError

/-- Python `"s" in v`: key test on dicts, element test on lists, substring
test on strings; `TypeError` on numbers, booleans and `None`. -/
def containsSub (needle : Str) : Str → Bool
  | [] => needle.isEmpty
  | c :: rest => needle.isPrefixOf (c :: rest) || containsSub needle rest

/-- Python membership operator with a string literal left operand. -/
def pyContains (v : JVal) (s : Str) : Except PyErr Bool :=
  match v with
  | .jobj fs => .ok (hasKey fs s)
  | .jarr xs => .ok (xs.any (fun x => isStrVal x s))
  | .jstr t => .ok (containsSub s t)
  | _ => .error .typeError

/-- Python `v["s"]` with a string key: only dicts accept it; list and
string subscripts demand integers, and other types are not subscriptable. -/
def pySubscript (v : JVal) (s : Str) : Except PyErr JVal :=
  match v with
  | .jobj fs => .ok (jIndex fs s)
  | _ => .error .typeError

/-- Python `len(v)`: defined on strings, lists and dicts, `TypeError`
otherwise. -/
def pyLen : JVal → Except PyErr Int
  | .jstr s => .ok s.length
  | .jarr xs => .ok xs.length
  | .jobj fs => .ok fs.length
  | _ => .error .typeError

/-- Numeric view of a value under Python `+`: booleans coerce to 0 or 1. -/
def jNumVal : JVal → Option Int
  | .jnum n => some n
  | .jbool b => some (if b then 1 else 0)
  | _ => none

/-- Python `a + b` restricted to the shapes the script can meet: numeric
addition (booleans included), string and list concatenation, `TypeError`
for every other combination. -/
def pyAdd (a b : JVal) : Except PyErr JVal :=
  match jNumVal a, jNumVal b with
  | some x, some y => .ok (.jnum (x + y))
  | _, _ =>
    match a, b with
    | .jstr s, .jstr t => .ok (.jstr (s ++ t))
    | .jarr s, .jarr t => .ok (.jarr (s ++ t))
    | _, _ => .error .typeError

/-- Configured context overhead, line 23 of the script. -/
def CONTEXT_OVERHEAD : Int := 88300

/-- Mutable state of the scan loop: `context_used_token` (always an
integer: the only assignment adds the integer overhead last) and
`last_prompt` (initially `""`, but assignable to any JSON value through
the fallback extraction path, hence a `JVal`). -/
structure ScanState where
  context : Int
  lastPrompt : JVal

/-- Shape of one transcript line after `line.strip()`: blank lines and
lines that raise `json.JSONDecodeError` are skipped by the script; all
other lines carry a parsed JSON value. -/
inductive TLine where
  | blank : TLine
  | malformed : TLine
  | parsed : JVal → TLine

/-- Text parts collected by the structured-content loop, lines 89-93: for
each dict part whose "type" equals "text", the part's "text" field
(default `""`). -/
def collectTextParts (parts : List JVal) : List JVal :=
  parts.filterMap fun p =>
    match p with
    | .jobj pf =>
        if isStrVal (jGetD pf keyType .jnull) keyText then
          some (jGetD pf keyText (.jstr []))
        else none
    | _ => none

/-- Python `" ".join(text_parts)`: every element must be a string, the
results are interleaved with single spaces. -/
def joinSp : List JVal → Except PyErr Str
  | [] => .ok []
  | [v] =>
    match v with
    | .jstr s => .ok s
    | _ => .error .typeError
  | v :: rest =>
    match v with
    | .jstr s => do
        let r ← joinSp rest
        .ok (s ++ ' ' :: r)
    | _ => .error .typeError

/-- Structured-content extraction, lines 87-98: a nonempty list of parts
goes through `collectTextParts` and `" ".join`; a plain string is taken
as the prompt (even when empty); anything else leaves the prompt as it
was. -/
def structuredPath (mc lp : JVal) : Except PyErr JVal :=
  match mc with
  | .jarr parts =>
      if parts.length > 0 then
        let tparts := collectTextParts parts
        if !tparts.isEmpty then do
          let s ← joinSp tparts
          .ok (.jstr s)
        else .ok lp
      else .ok lp
  | .jstr s => .ok (.jstr s)
  | _ => .ok lp

/-- Fallback extraction over a content list, lines 105-114: a dict item
with a truthy "text" value sets the prompt and stops; a string item sets
the prompt unconditionally and stops; other items are skipped. -/
def fallbackScan : List JVal → JVal → JVal
  | [], lp => lp
  | item :: rest, lp =>
    match item with
    | .jobj fsi =>
        if hasKey fsi keyText then
          let t := jIndex fsi keyText
          if truthy t then t else fallbackScan rest lp
        else fallbackScan rest lp
    | .jstr s => .jstr s
    | _ => fallbackScan rest lp

/-- Prompt truncation, lines 116-118: a truthy prompt longer than 50 is
replaced by its first 47 characters plus "..."; slicing then
concatenating "..." raises `TypeError` when the prompt is not a string. -/
def truncateStep (lp : JVal) : Except PyErr JVal :=
  if truthy lp then do
    let n ← pyLen lp
    if n > 50 then
      match lp with
      | .jstr s => .ok (.jstr (s.take 47 ++ strDots))
      | _ => .error .typeError
    else .ok lp
  else .ok lp

/-- Prompt extraction from a user message dict, lines 86-118: structured
path first, then the direct content fallback when the prompt is still
falsy, then truncation. -/
def extractPrompt (mf : List (Str × JVal)) (lp0 : JVal) : Except PyErr JVal := do
  let mc := jGetD mf keyContent (.jstr [])
  let lp1 ← structuredPath mc lp0
  let lp2 :=
    if !(truthy lp1) && hasKey mf keyContent then
      match jIndex mf keyContent with
      | .jstr s => JVal.jstr s
      | .jarr items => fallbackScan items lp1
      | _ => lp1
    else lp1
  truncateStep lp2

/-- User branch of the loop body, lines 79-118.  The guard mirrors
`obj.get("type") == "user" and "message" in obj and not last_prompt and
not obj.get("isMeta", False)`; `obj.get` on a non-dict raises
`AttributeError`, as does `.get("content", "")` when the message payload
is not a dict. -/
def userStep (obj : JVal) (st : ScanState) : Except PyErr ScanState :=
  match obj with
  | .jobj fs =>
    if isStrVal (jGetD fs keyType .jnull) strUser
        && hasKey fs keyMessage
        && !(truthy st.lastPrompt)
        && !(truthy (jGetD fs keyIsMeta (.jbool false))) then
      match jIndex fs keyMessage with
      | .jobj mf =>
          (extractPrompt mf st.lastPrompt).map fun lp3 => { st with lastPrompt := lp3 }
      | _ => .error .attrError
    else .ok st
  | _ => .error .attrError

/-- Token extraction from an assistant message payload, lines 125-147:
`none` when the message carries no "usage" entry, otherwise the sum of
the four token counts (defaulting to 0) plus the overhead. -/
def usageTokens (msg : JVal) : Except PyErr (Option Int) := do
  let hasU ← pyContains msg keyUsage
  if hasU then do
    let usage ← pySubscript msg keyUsage
    let it ← pyGet usage keyInput (.jnum 0)
    let cc ← pyGet usage keyCacheCreation (.jnum 0)
    let cr ← pyGet usage keyCacheRead (.jnum 0)
    let ot ← pyGet usage keyOutput (.jnum 0)
    let s1 ← pyAdd it cc
    let s2 ← pyAdd s1 cr
    let s3 ← pyAdd s2 ot
    let s4 ← pyAdd s3 (.jnum CONTEXT_OVERHEAD)
    match s4 with
    | .jnum n => .ok (some n)
    | _ => .error .typeError
  else .ok none

/-- Assistant branch of the loop body, lines 122-147.  The guard mirrors
`obj.get("type") == "assistant" and "message" in obj and "usage" in
obj["message"]`; a found usage payload overwrites `context_used_token`
unconditionally. -/
def assistantStep (obj : JVal) (st : ScanState) : Except PyErr ScanState :=
  match obj with
  | .jobj fs =>
    if isStrVal (jGetD fs keyType .jnull) strAssistant
        && hasKey fs keyMessage then
      (usageTokens (jIndex fs keyMessage)).map fun r =>
        match r with
        | some n => { st with context := n }
        | none => st
    else .ok st
  | _ => .error .attrError

/-- Body of the loop for one parsed line: the user branch runs first, the
assistant branch second, exactly as the two `if` statements at lines 79
and 122. -/
def processLine (obj : JVal) (st : ScanState) : Except PyErr ScanState := do
  let st1 ← userStep obj st
  assistantStep obj st1

/-- Reverse scan, lines 70-157, over the already-reversed line list
(head = last line of the file).  Blank and malformed lines are skipped;
after each parsed line the script breaks once `context_used_token > 0`
and `last_prompt` is truthy. -/
def scanRev : List TLine → ScanState → Except PyErr ScanState
  | [], st => .ok st
  | l :: rest, st =>
    match l with
    | .blank => scanRev rest st
    | .malformed => scanRev rest st
    | .parsed obj =>
        match processLine obj st with
        | .error e => .error e
        | .ok st2 =>
            if 0 < st2.context ∧ truthy st2.lastPrompt = true then .ok st2
            else scanRev rest st2

/-- Scan of a whole transcript given in file order, lines 66-157:
`for line in reversed(lines)` starting from `context_used_token = 0`,
`last_prompt = ""`. -/
def scanTranscript (lines : List TLine) : Except PyErr ScanState :=
  scanRev lines.reverse ⟨0, .jstr []⟩

/-- Outcome of `open(transcript_path)` followed by `readlines()`, lines
65-67: the file is readable and yields its lines; or it is absent and
`open` raises `FileNotFoundError`; or it exists but cannot be read —
`open` raises `PermissionError` or `IsADirectoryError`, or `readlines`
raises `UnicodeDecodeError`. -/
inductive TranscriptFile where
  | readable : List TLine → TranscriptFile
  | missing : TranscriptFile
  | unreadable : TranscriptFile

/-- Transcript opening, lines 65-161: the `try` block covers `open`,
`readlines` and the scan loop, and its only handler is
`except FileNotFoundError: pass` (line 159), which swallows the
missing-file case keeping the zero state.  Every other error raised when
opening or reading an existing file propagates uncaught. -/
def runScan (transcript : TranscriptFile) : Except PyErr ScanState :=
  match transcript with
  | .missing => .ok ⟨0, .jstr []⟩
  | .unreadable => .error .osError
  | .readable lines => scanTranscript lines

/-- Python `str.lower()` restricted to the ASCII range the model ids use. -/
def toLowerStr (s : Str) : Str := s.map Char.toLower

/-- Context-limit resolution, lines 37-45.  The value read from the input
(`data.get("model", {}).get("context_window", 1000000)`) is bound and then
unconditionally overwritten by the model-id heuristic: the if/elif/else
chain covers every case. -/
def context_limit (model_id : Str) (context_window : Option Int) : Int :=
  let _from_input : Int := context_window.getD 1000000
  if containsSub str1m (toLowerStr model_id) then 1000000
  else if containsSub str200k (toLowerStr model_id) then 200000
  else 1000000

/-- Percentage at line 163, computed exactly over `ℚ` in place of the
Python float. -/
def context_used_rate (used limit : Int) : ℚ :=
  (used : ℚ) / (limit : ℚ) * 100

/-- Fixed bar width, line 166. -/
def bar_length : Int := 20

/-- Fill count at line 167: `int(bar_length * context_used_token //
context_limit)`; Python `//` is floor division, `Int.fdiv`. -/
def filled_length (used limit : Int) : Int :=
  Int.fdiv (bar_length * used) limit

/-- Python `"c" * n` for a single character: empty for `n ≤ 0`. -/
def pyStrMul (c : Char) (n : Int) : Str := List.replicate n.toNat c

/-- Progress bar at line 168: filled blocks then padding; only the padding
factor can go negative, and then multiplies to the empty string. -/
def bar (used limit : Int) : Str :=
  pyStrMul '█' (filled_length used limit)
    ++ pyStrMul '░' (bar_length - filled_length used limit)

/-- Fallback at lines 283-285: an empty (falsy) prompt is replaced by the
literal "no recent prompt". -/
def final_prompt (lp : JVal) : JVal :=
  if truthy lp then lp else .jstr strNoPrompt

/-- Core rendering pipeline fed by the transcript scan: token count,
percentage, bar and final prompt, as assembled into the printed line.
An uncaught exception from the scan aborts the whole script before
anything is printed. -/
def renderCore (model_id : Str) (context_window : Option Int)
    (transcript : TranscriptFile) : Except PyErr (Int × ℚ × Str × JVal) :=
  match runScan transcript with
  | .error e => .error e
  | .ok st =>
      let limit := context_limit model_id context_window
      .ok (st.context, context_used_rate st.context limit,
           bar st.context limit, final_prompt st.lastPrompt)

/-- Whitespace stripped by Python `str.strip()` and `int()` (ASCII part). -/
def pyWs (c : Char) : Bool :=
  c == ' ' || c == '\t' || c == '\n' || c == '\r' || c == '\x0b' || c == '\x0c'

/-- Python `str.strip()`: drop leading and trailing whitespace. -/
def pyStrip (s : Str) : Str :=
  ((s.dropWhile pyWs).reverse.dropWhile pyWs).reverse

/-- Digit tail of Python `int()` parsing: ASCII digits with single
underscores allowed between digits. -/
def pyDigitsAux : Nat → List Char → Option Nat
  | acc, [] => some acc
  | _, ['_'] => none
  | acc, '_' :: c :: rest =>
      if c.isDigit then pyDigitsAux (acc * 10 + (c.toNat - 48)) rest else none
  | acc, c :: rest =>
      if c.isDigit then pyDigitsAux (acc * 10 + (c.toNat - 48)) rest else none

/-- Nonempty digit run for Python `int()`. -/
def pyDigits : List Char → Option Nat
  | [] => none
  | c :: rest => if c.isDigit then pyDigitsAux (c.toNat - 48) rest else none

/-- Python `int(s)`: surrounding whitespace, an optional sign, then a
nonempty digit run (with `_` group separators); `none` models the
`ValueError` the script catches at line 214. -/
def pyIntParse (s : Str) : Option Int :=
  match pyStrip s with
  | '+' :: rest => (pyDigits rest).map (fun n => (n : Int))
  | '-' :: rest => (pyDigits rest).map (fun n => -(n : Int))
  | rest => (pyDigits rest).map (fun n => (n : Int))

/-- Python `s.split(".")`: every dot is a separator, empty pieces are
kept, and the empty string splits to one empty piece. -/
def splitDot : Str → List Str
  | [] => [[]]
  | c :: rest =>
    let r := splitDot rest
    if c == '.' then [] :: r
    else
      match r with
      | h :: t => (c :: h) :: t
      | [] => [[c]]

/-- Version tuple at lines 203-204: `tuple(map(int, v.split(".")[:3]))`,
`none` when any component fails to parse as an integer. -/
def version_to_tuple (v : Str) : Option (List Int) :=
  ((splitDot v).take 3).mapM pyIntParse

/-- Python tuple `<` on integer tuples: lexicographic, a strict prefix is
smaller. -/
def tupLt : List Int → List Int → Bool
  | [], [] => false
  | [], _ :: _ => true
  | _ :: _, [] => false
  | a :: as, b :: bs => if a < b then true else if b < a then false else tupLt as bs

/-- Python `s.lstrip("v")`: drops every leading `v`, not just one. -/
def lstripV (s : Str) : Str := s.dropWhile (fun c => c == 'v')

/-- Version comparison, lines 186-224.  The network interaction is the
function's environment: `none` stands for any fetch or JSON-decode
failure (`URLError`, `HTTPError`, `JSONDecodeError`, timeout), `some data`
for a successfully parsed response body.  A non-dict response or a
non-string `tag_name` raises inside the outer `try`, whose handler also
catches plain `Exception`, yielding "current". -/
def check_claude_version (current_version : Str) (resp : Option JVal) : Str :=
  match resp with
  | none => strCurrent
  | some data =>
    match data with
    | .jobj fs =>
      match jGetD fs keyTagName (.jstr []) with
      | .jstr t =>
        let latest_version := lstripV t
        if latest_version.isEmpty then strCurrent
        else
          match version_to_tuple (lstripV current_version),
                version_to_tuple latest_version with
          | some ct, some lt =>
              if tupLt ct lt then strOutdated else strCurrent
          | _, _ => strCurrent
      | _ => strCurrent
    | _ => strCurrent

/-- Cached version status, lines 227-254.  Filesystem and clock are the
function's environment: whether the cache file exists, its modification
time and the current time (floats, modelled exactly over `ℚ`), its
content, and the value `check_claude_version` would produce.  The
returned flag records whether the network path ran. -/
def get_version_status (cacheExists : Bool) (mtime now : ℚ) (content : Str)
    (current_version : Str) (resp : Option JVal) : Str × Bool :=
  if cacheExists ∧ now - mtime < 3600 then (pyStrip content, false)
  else (check_claude_version current_version resp, true)

/-- Recognizer for string values. -/
def isJStr : JVal → Bool
  | .jstr _ => true
  | _ => false

/-- Recognizer for integer values. -/
def isNumV : JVal → Bool
  | .jnum _ => true
  | _ => false

/-- Shape of a usage payload on which the token extraction cannot raise:
a dict whose four token fields, where present, are integers. -/
def wellUsage : JVal → Bool
  | .jobj uf =>
      isNumV (jGetD uf keyInput (.jnum 0))
      && isNumV (jGetD uf keyCacheCreation (.jnum 0))
      && isNumV (jGetD uf keyCacheRead (.jnum 0))
      && isNumV (jGetD uf keyOutput (.jnum 0))
  | _ => false

/-- Shape of a content-list item on which prompt extraction cannot raise:
dict items must carry a string "text" field (absent defaults to ""). -/
def wellItem : JVal → Bool
  | .jobj pf => isJStr (jGetD pf keyText (.jstr []))
  | _ => true

/-- Shape of a message "content" value on which prompt extraction cannot
raise. -/
def wellContent : JVal → Bool
  | .jarr items => items.all wellItem
  | _ => true

/-- Shape of a "message" payload on which the loop body cannot raise: a
dict whose content and usage entries are themselves well shaped. -/
def wellMsg : JVal → Bool
  | .jobj mf =>
      wellContent (jGetD mf keyContent (.jstr []))
      && (match jLookup mf keyUsage with
          | some u => wellUsage u
          | none => true)
  | _ => false

/-- Transcript records on which the loop body cannot raise: a JSON object
whose "message" payload, when the record's type is "user" or "assistant"
and the key is present, is well shaped.  Missing keys are fine: they
default to 0 or to the empty string. -/
def WellShaped : JVal → Bool
  | .jobj fs =>
      (match jGetD fs keyType .jnull with
       | .jstr t =>
           if t == strUser || t == strAssistant then
             match jLookup fs keyMessage with
             | some m => wellMsg m
             | none => true
           else true
       | _ => true)
  | _ => false

/-- Record shape that makes the assistant branch store a usage sum:
type "assistant" with a dict message carrying a "usage" key. -/
def objHasUsage : JVal → Bool
  | .jobj fs =>
      isStrVal (jGetD fs keyType .jnull) strAssistant
      && (match jLookup fs keyMessage with
          | some (.jobj mf) => hasKey mf keyUsage
          | _ => false)
  | _ => false

/-- Transcript line carrying an assistant-usage record. -/
def lineHasUsage : TLine → Bool
  | .parsed obj => objHasUsage obj
  | _ => false

/-- Message payloads with no structural "usage" entry. -/
def msgNoUsage : JVal → Bool
  | .jobj mf => !hasKey mf keyUsage
  | _ => true

/-- Assistant record with a single `input_tokens` count, used as concrete
test input. -/
def assistantRec (n : Int) : JVal :=
  .jobj [(keyType, .jstr strAssistant),
         (keyMessage,
          .jobj [(keyUsage, .jobj [(keyInput, .jnum n)])])]

/-- User record with a plain string content, used as concrete test
input. -/
def userRec (s : Str) : JVal :=
  .jobj [(keyType, .jstr strUser),
         (keyMessage, .jobj [(keyContent, .jstr s)])]

/-- User record whose content is an empty list: a non-meta user record
from which no prompt text is extractable. -/
def userRecEmptyList : JVal :=
  .jobj [(keyType, .jstr strUser),
         (keyMessage, .jobj [(keyContent, .jarr [])])]

/-- The claim's reading of "stripping a leading v": remove one leading
`v` character, in contrast to the script's `lstrip("v")` which removes
all of them. -/
def stripOneV : Str → Str
  | 'v' :: rest => rest
  | s => s

/-- Lemma: the user branch never changes `context_used_token`. -/
theorem userStep_context (obj : JVal) (st st2 : ScanState)
    (h : userStep obj st = .ok st2) : st2.context = st.context := by
  cases obj
  case jobj fs =>
    simp only [userStep] at h
    split at h
    · split at h
      · rename_i mf _
        cases hx : extractPrompt mf st.lastPrompt with
        | error e => rw [hx] at h; simp [Except.map] at h
        | ok lp => rw [hx] at h; simp [Except.map] at h; rw [← h]
      · cases h
    · cases h; rfl
  all_goals simp [userStep] at h

/-- Lemma: the assistant branch never changes `last_prompt`. -/
theorem assistantStep_lastPrompt (obj : JVal) (st st2 : ScanState)
    (h : assistantStep obj st = .ok st2) : st2.lastPrompt = st.lastPrompt := by
  cases obj
  case jobj fs =>
    simp only [assistantStep] at h
    split at h
    · cases hx : usageTokens (jIndex fs keyMessage) with
      | error e => rw [hx] at h; simp [Except.map] at h
      | ok r =>
        rw [hx] at h; simp [Except.map] at h
        cases r with
        | some n => rw [← h]
        | none => rw [← h]
    · cases h; rfl
  all_goals simp [assistantStep] at h

/-- Lemma: a message payload with no structural usage entry either yields
no tokens or raises. -/
theorem usageTokens_noUsage (msg : JVal) (h : msgNoUsage msg = true) :
    usageTokens msg = .ok none ∨ ∃ e, usageTokens msg = .error e := by
  cases msg with
  | jobj mf =>
    left
    simp only [msgNoUsage, Bool.not_eq_true'] at h
    simp_all [usageTokens, pyContains, Bind.bind, Except.bind]
  | jarr xs =>
    by_cases hx : (xs.any fun x => isStrVal x keyUsage) = true
    · right
      refine ⟨.typeError, ?_⟩
      simp_all [usageTokens, pyContains, pySubscript, Bind.bind, Except.bind]
    · left
      simp only [Bool.not_eq_true] at hx
      simp_all [usageTokens, pyContains, pySubscript, Bind.bind, Except.bind]
  | jstr s =>
    by_cases hx : containsSub keyUsage s = true
    · right
      refine ⟨.typeError, ?_⟩
      simp_all [usageTokens, pyContains, pySubscript, Bind.bind, Except.bind]
    · left
      simp only [Bool.not_eq_true] at hx
      simp_all [usageTokens, pyContains, pySubscript, Bind.bind, Except.bind]
  | jnull => right; exact ⟨.typeError, by simp [usageTokens, pyContains, Bind.bind, Except.bind]⟩
  | jbool b => right; exact ⟨.typeError, by simp [usageTokens, pyContains, Bind.bind, Except.bind]⟩
  | jnum n => right; exact ⟨.typeError, by simp [usageTokens, pyContains, Bind.bind, Except.bind]⟩

/-- Lemma: on a record that is not an assistant-usage record, a
successful assistant branch leaves `context_used_token` unchanged. -/
theorem assistantStep_context_noUsage (obj : JVal) (st st2 : ScanState)
    (hno : objHasUsage obj = false) (h : assistantStep obj st = .ok st2) :
    st2.context = st.context := by
  cases obj
  case jobj fs =>
    simp only [assistantStep] at h
    split at h
    · rename_i hg
      have hmsg : msgNoUsage (jIndex fs keyMessage) = true := by
        simp only [Bool.and_eq_true] at hg
        obtain ⟨hty, hkey⟩ := hg
        simp only [objHasUsage, hty, Bool.true_and] at hno
        unfold jIndex jGetD
        unfold hasKey at hkey
        cases hlk : jLookup fs keyMessage with
        | none => rw [hlk] at hkey; cases hkey
        | some m =>
          rw [hlk] at hno
          simp only [Option.getD]
          cases m with
          | jobj mf => simpa [msgNoUsage] using hno
          | jnull => rfl
          | jbool b => rfl
          | jnum n => rfl
          | jstr s => rfl
          | jarr xs => rfl
      rcases usageTokens_noUsage _ hmsg with hok | ⟨e, herr⟩
      · rw [hok] at h; simp [Except.map] at h; rw [← h]
      · rw [herr] at h; simp [Except.map] at h
    · cases h; rfl
  all_goals simp [assistantStep] at h

/-- Lemma: a successfully processed line that is not an assistant-usage
record leaves `context_used_token` unchanged. -/
theorem processLine_context_noUsage (obj : JVal) (st st2 : ScanState)
    (hno : objHasUsage obj = false) (h : processLine obj st = .ok st2) :
    st2.context = st.context := by
  unfold processLine at h
  cases hu : userStep obj st with
  | error e => rw [hu] at h; simp [Bind.bind, Except.bind] at h
  | ok st1 =>
    rw [hu] at h
    simp only [Bind.bind, Except.bind] at h
    have h1 := userStep_context obj st st1 hu
    have h2 := assistantStep_context_noUsage obj st1 st2 hno h
    rw [h2, h1]

/-- Lemma: inversion of one parsed-line iteration of the scan loop: the
line processed successfully, and either the loop broke there or went on
with the updated state. -/
theorem scanRev_parsed_inv (obj : JVal) (rest : List TLine) (st st2 : ScanState)
    (h : scanRev (.parsed obj :: rest) st = .ok st2) :
    ∃ stx, processLine obj st = .ok stx ∧
      (st2 = stx ∨ scanRev rest stx = .ok st2) := by
  simp only [scanRev] at h
  cases hp : processLine obj st with
  | error e => simp only [hp] at h; cases h
  | ok stx =>
    simp only [hp] at h
    refine ⟨stx, rfl, ?_⟩
    split at h
    · left; cases h; rfl
    · right; exact h

/-- Lemma: over lines none of which is an assistant-usage record, a
successful scan leaves `context_used_token` at its initial value. -/
theorem scanRev_context_noUsage (ls : List TLine) (st st2 : ScanState)
    (hno : ∀ l ∈ ls, lineHasUsage l = false) (h : scanRev ls st = .ok st2) :
    st2.context = st.context := by
  induction ls generalizing st with
  | nil => cases h; rfl
  | cons l rest ih =>
    cases l with
    | blank => exact ih st (fun x hx => hno x (List.mem_cons_of_mem _ hx)) h
    | malformed => exact ih st (fun x hx => hno x (List.mem_cons_of_mem _ hx)) h
    | parsed obj =>
      obtain ⟨stx, hp, hrest⟩ := scanRev_parsed_inv obj rest st st2 h
      have hobj : objHasUsage obj = false := by
        have := hno (.parsed obj) (List.mem_cons_self _ _)
        simpa [lineHasUsage] using this
      have hctx := processLine_context_noUsage obj st stx hobj hp
      rcases hrest with hbrk | hcont
      · rw [hbrk]; exact hctx
      · exact (ih stx (fun x hx => hno x (List.mem_cons_of_mem _ hx)) hcont).trans hctx

/-- Lemma: once `last_prompt` is truthy the user branch is a no-op. -/
theorem userStep_truthy (obj : JVal) (st st2 : ScanState)
    (hp : truthy st.lastPrompt = true) (h : userStep obj st = .ok st2) :
    st2 = st := by
  cases obj
  case jobj fs =>
    simp only [userStep, hp, Bool.not_true, Bool.and_false, Bool.false_and,
      if_false, Bool.false_eq_true] at h
    cases h; rfl
  all_goals simp [userStep] at h

/-- Lemma: a successfully processed line keeps a truthy `last_prompt`
unchanged. -/
theorem processLine_truthy (obj : JVal) (st st2 : ScanState)
    (hp : truthy st.lastPrompt = true) (h : processLine obj st = .ok st2) :
    st2.lastPrompt = st.lastPrompt := by
  unfold processLine at h
  cases hu : userStep obj st with
  | error e => rw [hu] at h; simp [Bind.bind, Except.bind] at h
  | ok st1 =>
    rw [hu] at h
    simp only [Bind.bind, Except.bind] at h
    have h1 := userStep_truthy obj st st1 hp hu
    rw [h1] at h
    exact assistantStep_lastPrompt obj st st2 h

/-- Lemma: a scan started with a truthy `last_prompt` never changes it. -/
theorem scanRev_truthy (ls : List TLine) (st st2 : ScanState)
    (hp : truthy st.lastPrompt = true) (h : scanRev ls st = .ok st2) :
    st2.lastPrompt = st.lastPrompt := by
  induction ls generalizing st with
  | nil => cases h; rfl
  | cons l rest ih =>
    cases l with
    | blank => exact ih st hp h
    | malformed => exact ih st hp h
    | parsed obj =>
      obtain ⟨stx, hpr, hrest⟩ := scanRev_parsed_inv obj rest st st2 h
      have hkeep := processLine_truthy obj st stx hp hpr
      rcases hrest with hbrk | hcont
      · rw [hbrk]; exact hkeep
      · have hstx : truthy stx.lastPrompt = true := by rw [hkeep]; exact hp
        exact (ih stx hstx hcont).trans hkeep

/-- Lemma: characterization of the string recognizer. -/
theorem isJStr_exists (v : JVal) (h : isJStr v = true) : ∃ s, v = .jstr s := by
  cases v <;> simp [isJStr] at h ⊢

/-- Lemma: characterization of the number recognizer. -/
theorem isNumV_exists (v : JVal) (h : isNumV v = true) : ∃ n, v = .jnum n := by
  cases v <;> simp [isNumV] at h ⊢

/-- Lemma: when the key is present, `jIndex` agrees with `jGetD` at every
default. -/
theorem jIndex_of_hasKey (fs : List (Str × JVal)) (k : Str) (d : JVal)
    (h : hasKey fs k = true) : jIndex fs k = jGetD fs k d := by
  unfold jIndex jGetD
  unfold hasKey at h
  cases hlk : jLookup fs k with
  | none => rw [hlk] at h; cases h
  | some v => simp [hlk]

/-- Lemma: joining a list of strings succeeds. -/
theorem joinSp_ok (l : List JVal) (h : ∀ v ∈ l, isJStr v = true) :
    ∃ s, joinSp l = .ok s := by
  induction l with
  | nil => exact ⟨[], rfl⟩
  | cons v rest ih =>
    obtain ⟨s, hs⟩ := isJStr_exists v (h v (List.mem_cons_self _ _))
    subst hs
    cases rest with
    | nil => exact ⟨s, rfl⟩
    | cons w rest2 =>
      obtain ⟨r, hr⟩ := ih (fun x hx => h x (List.mem_cons_of_mem _ hx))
      exact ⟨s ++ ' ' :: r, by simp [joinSp, hr, Bind.bind, Except.bind]⟩

/-- Lemma: under well-shaped items, every collected text part is a
string. -/
theorem collectTextParts_jstr (parts : List JVal)
    (h : ∀ p ∈ parts, wellItem p = true) :
    ∀ v ∈ collectTextParts parts, isJStr v = true := by
  intro v hv
  unfold collectTextParts at hv
  rw [List.mem_filterMap] at hv
  obtain ⟨p, hp, hpv⟩ := hv
  have hwp := h p hp
  cases p
  case jobj pf =>
    simp only at hpv
    split at hpv
    · simp only [Option.some.injEq] at hpv
      rw [← hpv]
      simpa [wellItem] using hwp
    · cases hpv
  all_goals cases hpv

/-- Lemma: under well-shaped items, the fallback extraction keeps the
prompt a string. -/
theorem fallbackScan_jstr (items : List JVal) (lp : JVal)
    (hl : isJStr lp = true) (h : ∀ p ∈ items, wellItem p = true) :
    isJStr (fallbackScan items lp) = true := by
  induction items with
  | nil => simpa [fallbackScan]
  | cons item rest ih =>
    have hi := h item (List.mem_cons_self _ _)
    have hrest := fun x hx => h x (List.mem_cons_of_mem item hx)
    cases item with
    | jobj fsi =>
      simp only [fallbackScan]
      by_cases hk : hasKey fsi keyText = true
      · simp only [hk, if_true]
        have htext : isJStr (jIndex fsi keyText) = true := by
          rw [jIndex_of_hasKey fsi _ (.jstr []) hk]
          simpa [wellItem] using hi
        split
        · exact htext
        · exact ih hrest
      · simp only [Bool.not_eq_true] at hk
        simp only [hk, Bool.false_eq_true, if_false]
        exact ih hrest
    | jstr s => simp [fallbackScan, isJStr]
    | jnull => exact ih hrest
    | jbool b => exact ih hrest
    | jnum n => exact ih hrest
    | jarr xs => exact ih hrest

/-- Lemma: truncation of a string prompt always succeeds with a string. -/
theorem truncateStep_jstr (lp : JVal) (h : isJStr lp = true) :
    ∃ t, truncateStep lp = .ok (.jstr t) := by
  obtain ⟨s, hs⟩ := isJStr_exists lp h
  subst hs
  unfold truncateStep
  simp only [truthy]
  by_cases he : s.isEmpty
  · simp [he]
  · simp only [he, Bool.not_false, if_true, pyLen, Bind.bind, Except.bind]
    by_cases hl : ((s.length : Int) > 50)
    · exact ⟨s.take 47 ++ strDots, by simp [hl]⟩
    · exact ⟨s, by simp [hl]⟩

/-- Lemma: under well-shaped content, the structured path succeeds and
keeps the prompt a string. -/
theorem structuredPath_jstr (mc lp : JVal) (hl : isJStr lp = true)
    (hc : wellContent mc = true) :
    ∃ r, structuredPath mc lp = .ok r ∧ isJStr r = true := by
  cases mc with
  | jarr parts =>
    simp only [structuredPath]
    by_cases hp : parts.length > 0
    · simp only [hp, if_true]
      by_cases ht : (collectTextParts parts).isEmpty
      · refine ⟨lp, ?_, hl⟩
        simp [ht]
      · have hall : ∀ v ∈ collectTextParts parts, isJStr v = true :=
          collectTextParts_jstr parts
            (by simpa [wellContent, List.all_eq_true] using hc)
        obtain ⟨s, hs⟩ := joinSp_ok _ hall
        refine ⟨.jstr s, ?_, rfl⟩
        simp only [Bool.not_eq_true] at ht
        simp [ht, hs, Bind.bind, Except.bind]
    · refine ⟨lp, ?_, hl⟩
      simp [hp]
  | jstr s => exact ⟨.jstr s, rfl, rfl⟩
  | jnull => exact ⟨lp, rfl, hl⟩
  | jbool b => exact ⟨lp, rfl, hl⟩
  | jnum n => exact ⟨lp, rfl, hl⟩
  | jobj fs2 => exact ⟨lp, rfl, hl⟩

/-- Lemma: under a well-shaped content entry, the whole prompt extraction
succeeds with a string. -/
theorem extractPrompt_jstr (mf : List (Str × JVal)) (lp0 : JVal)
    (hl : isJStr lp0 = true)
    (hc : wellContent (jGetD mf keyContent (.jstr [])) = true) :
    ∃ t, extractPrompt mf lp0 = .ok (.jstr t) := by
  unfold extractPrompt
  obtain ⟨lp1, h1, hstr1⟩ := structuredPath_jstr _ lp0 hl hc
  simp only [h1, Bind.bind, Except.bind]
  apply truncateStep_jstr
  split
  · rename_i hcond
    rw [Bool.and_eq_true] at hcond
    have hkey : hasKey mf keyContent = true := hcond.2
    rw [jIndex_of_hasKey mf _ (.jstr []) hkey]
    cases hmc : jGetD mf keyContent (.jstr []) with
    | jstr s => rfl
    | jarr items =>
      apply fallbackScan_jstr _ _ hstr1
      rw [hmc] at hc
      simpa [wellContent, List.all_eq_true] using hc
    | jnull => exact hstr1
    | jbool b => exact hstr1
    | jnum n => exact hstr1
    | jobj fs2 => exact hstr1
  · exact hstr1

/-- Lemma: a well-shaped usage entry (or its absence) makes the token
extraction succeed. -/
theorem usageTokens_wellMsg (mf : List (Str × JVal))
    (hu : match jLookup mf keyUsage with
          | some u => wellUsage u = true
          | none => True) :
    ∃ r, usageTokens (.jobj mf) = .ok r := by
  unfold usageTokens
  simp only [pyContains, Bind.bind, Except.bind]
  by_cases hk : hasKey mf keyUsage = true
  · simp only [hk, if_true]
    cases hlk : jLookup mf keyUsage with
    | none => unfold hasKey at hk; rw [hlk] at hk; cases hk
    | some u =>
      rw [hlk] at hu
      have hidx : jIndex mf keyUsage = u := by
        unfold jIndex jGetD; rw [hlk]; rfl
      simp only [pySubscript, hidx]
      cases u with
      | jobj uf =>
        simp only [wellUsage, Bool.and_eq_true] at hu
        obtain ⟨⟨⟨hn1, hn2⟩, hn3⟩, hn4⟩ := hu
        obtain ⟨a1, ha1⟩ := isNumV_exists _ hn1
        obtain ⟨a2, ha2⟩ := isNumV_exists _ hn2
        obtain ⟨a3, ha3⟩ := isNumV_exists _ hn3
        obtain ⟨a4, ha4⟩ := isNumV_exists _ hn4
        refine ⟨some (a1 + a2 + a3 + a4 + CONTEXT_OVERHEAD), ?_⟩
        simp_all [pyGet, pyAdd, jNumVal, Bind.bind, Except.bind]
      | jnull => simp [wellUsage] at hu
      | jbool b => simp [wellUsage] at hu
      | jnum n => simp [wellUsage] at hu
      | jstr s => simp [wellUsage] at hu
      | jarr xs => simp [wellUsage] at hu
  · simp only [Bool.not_eq_true] at hk
    exact ⟨none, by simp [hk]⟩

/-- Lemma: a well-shaped record of type `tname` (user or assistant) with
a message entry has a well-shaped message payload. -/
theorem wellShaped_msg (fs : List (Str × JVal)) (tname : Str)
    (hw : WellShaped (.jobj fs) = true)
    (hty : isStrVal (jGetD fs keyType .jnull) tname = true)
    (hor : (tname == strUser || tname == strAssistant) = true)
    (hkey : hasKey fs keyMessage = true) :
    wellMsg (jIndex fs keyMessage) = true := by
  simp only [WellShaped] at hw
  cases hval : jGetD fs keyType .jnull with
  | jstr t =>
    rw [hval] at hw hty
    simp only [isStrVal] at hty
    have hteq : t = tname := by simpa using hty
    subst hteq
    simp only [hor, if_true] at hw
    unfold hasKey at hkey
    cases hlk : jLookup fs keyMessage with
    | none => rw [hlk] at hkey; cases hkey
    | some m =>
      simp only [hlk] at hw
      have hidx : jIndex fs keyMessage = m := by
        unfold jIndex jGetD; rw [hlk]; rfl
      rw [hidx]
      exact hw
  | jnull => rw [hval] at hty; simp [isStrVal] at hty
  | jbool b => rw [hval] at hty; simp [isStrVal] at hty
  | jnum n => rw [hval] at hty; simp [isStrVal] at hty
  | jarr xs => rw [hval] at hty; simp [isStrVal] at hty
  | jobj fs2 => rw [hval] at hty; simp [isStrVal] at hty

/-- Lemma: on a well-shaped record the user branch succeeds and keeps the
prompt a string. -/
theorem userStep_wellShaped (obj : JVal) (st : ScanState)
    (hw : WellShaped obj = true) (hs : isJStr st.lastPrompt = true) :
    ∃ st2, userStep obj st = .ok st2 ∧ isJStr st2.lastPrompt = true := by
  cases obj
  case jobj fs =>
    simp only [userStep]
    split
    · rename_i hg
      simp only [Bool.and_eq_true] at hg
      obtain ⟨⟨⟨hty, hkey⟩, hnp⟩, hmeta⟩ := hg
      have hmsg := wellShaped_msg fs strUser hw hty (by decide) hkey
      cases hm : jIndex fs keyMessage with
      | jobj mf =>
        rw [hm] at hmsg
        simp only [wellMsg, Bool.and_eq_true] at hmsg
        obtain ⟨hc, hu⟩ := hmsg
        obtain ⟨t, ht⟩ := extractPrompt_jstr mf st.lastPrompt hs hc
        refine ⟨{ st with lastPrompt := .jstr t }, ?_, rfl⟩
        dsimp only
        rw [ht]
        rfl
      | jnull => rw [hm] at hmsg; simp [wellMsg] at hmsg
      | jbool b => rw [hm] at hmsg; simp [wellMsg] at hmsg
      | jnum n => rw [hm] at hmsg; simp [wellMsg] at hmsg
      | jstr s => rw [hm] at hmsg; simp [wellMsg] at hmsg
      | jarr xs => rw [hm] at hmsg; simp [wellMsg] at hmsg
    · exact ⟨st, rfl, hs⟩
  all_goals simp [WellShaped] at hw

/-- Lemma: on a well-shaped record the assistant branch succeeds and
leaves the prompt unchanged. -/
theorem assistantStep_wellShaped (obj : JVal) (st : ScanState)
    (hw : WellShaped obj = true) :
    ∃ st2, assistantStep obj st = .ok st2 ∧ st2.lastPrompt = st.lastPrompt := by
  cases obj
  case jobj fs =>
    simp only [assistantStep]
    split
    · rename_i hg
      simp only [Bool.and_eq_true] at hg
      obtain ⟨hty, hkey⟩ := hg
      have hmsg := wellShaped_msg fs strAssistant hw hty (by decide) hkey
      cases hm : jIndex fs keyMessage with
      | jobj mf =>
        rw [hm] at hmsg
        simp only [wellMsg, Bool.and_eq_true] at hmsg
        obtain ⟨hc, hu⟩ := hmsg
        have hu2 : match jLookup mf keyUsage with
            | some u => wellUsage u = true
            | none => True := by
          cases hlk : jLookup mf keyUsage with
          | none => trivial
          | some u => simp only [hlk] at hu; exact hu
        obtain ⟨r, hr⟩ := usageTokens_wellMsg mf hu2
        cases r with
        | some n => exact ⟨{ st with context := n }, by rw [hr]; rfl, rfl⟩
        | none => exact ⟨st, by rw [hr]; rfl, rfl⟩
      | jnull => rw [hm] at hmsg; simp [wellMsg] at hmsg
      | jbool b => rw [hm] at hmsg; simp [wellMsg] at hmsg
      | jnum n => rw [hm] at hmsg; simp [wellMsg] at hmsg
      | jstr s => rw [hm] at hmsg; simp [wellMsg] at hmsg
      | jarr xs => rw [hm] at hmsg; simp [wellMsg] at hmsg
    · exact ⟨st, rfl, rfl⟩
  all_goals simp [WellShaped] at hw

/-- Lemma: on a well-shaped record the whole loop body succeeds and keeps
the prompt a string. -/
theorem processLine_wellShaped (obj : JVal) (st : ScanState)
    (hw : WellShaped obj = true) (hs : isJStr st.lastPrompt = true) :
    ∃ st2, processLine obj st = .ok st2 ∧ isJStr st2.lastPrompt = true := by
  obtain ⟨st1, h1, hs1⟩ := userStep_wellShaped obj st hw hs
  obtain ⟨st2, h2, hp2⟩ := assistantStep_wellShaped obj st1 hw
  refine ⟨st2, ?_, ?_⟩
  · unfold processLine
    rw [h1]
    simp only [Bind.bind, Except.bind]
    exact h2
  · rw [hp2]; exact hs1

/-- Lemma: a scan over well-shaped parsed lines succeeds and ends with a
string prompt. -/
theorem scanRev_wellShaped (ls : List TLine) (st : ScanState)
    (hw : ∀ obj, TLine.parsed obj ∈ ls → WellShaped obj = true)
    (hs : isJStr st.lastPrompt = true) :
    ∃ st2, scanRev ls st = .ok st2 ∧ isJStr st2.lastPrompt = true := by
  induction ls generalizing st with
  | nil => exact ⟨st, rfl, hs⟩
  | cons l rest ih =>
    cases l with
    | blank =>
      simpa [scanRev] using ih st (fun o ho => hw o (List.mem_cons_of_mem _ ho)) hs
    | malformed =>
      simpa [scanRev] using ih st (fun o ho => hw o (List.mem_cons_of_mem _ ho)) hs
    | parsed obj =>
      obtain ⟨st1, h1, hs1⟩ :=
        processLine_wellShaped obj st (hw obj (List.mem_cons_self _ _)) hs
      simp only [scanRev, h1]
      split
      · exact ⟨st1, rfl, hs1⟩
      · exact ih st1 (fun o ho => hw o (List.mem_cons_of_mem _ ho)) hs1

/-- C1: the claim says the usage tuple kept is always the one from the
assistant record closest to the end of the file, even when no non-meta
user prompt is ever found.  The code violates this: with two
assistant-usage records (older `input_tokens = 100`, newer
`input_tokens = 500`) and no user record, the loop never breaks and each
older record overwrites `context_used_token`, so the scan ends with
100 + 88300 = 88400 from the OLDER record, while the newest record alone
yields 500 + 88300 = 88800. -/
theorem c1_oldest_usage_wins :
    scanTranscript [.parsed (assistantRec 100), .parsed (assistantRec 500)] =
      .ok ⟨88400, .jstr []⟩ ∧
    assistantStep (assistantRec 500) ⟨0, .jstr []⟩ = .ok ⟨88800, .jstr []⟩ :=
  ⟨rfl, rfl⟩

/-- C2 counterexample: on a missing transcript (and equally on an empty
one) the script keeps `context_used_token = 0` — the overhead constant is
only ever added when a usage record is found — so used_tokens is 0, not
88300, and the percentage for the spec's end-to-end input is 0, not
44.15. -/
theorem c2_counterexample :
    runScan .missing = .ok ⟨0, .jstr []⟩ ∧
    scanTranscript [] = .ok ⟨0, .jstr []⟩ ∧
    (0 : Int) ≠ 88300 ∧
    context_used_rate 0 (context_limit "test-200k".toList none) = 0 ∧
    context_used_rate 0 (context_limit "test-200k".toList none) ≠ 4415 / 100 := by
  refine ⟨rfl, rfl, by decide, by simp [context_used_rate], ?_⟩
  simp only [context_used_rate]
  norm_num

/-- C2 (amended): for every transcript containing zero assistant-usage
records, a successful scan leaves used_tokens at 0 (not at the overhead
constant), and the resulting percentage for the end-to-end model id
"test-200k" is 0%. -/
theorem c2_amended (lines : List TLine) (st : ScanState)
    (hno : ∀ l ∈ lines, lineHasUsage l = false)
    (hok : scanTranscript lines = .ok st) :
    st.context = 0 ∧
    context_used_rate st.context (context_limit "test-200k".toList none) = 0 := by
  unfold scanTranscript at hok
  have h0 := scanRev_context_noUsage lines.reverse ⟨0, .jstr []⟩ st
    (fun l hl => hno l (List.mem_reverse.mp hl)) hok
  refine ⟨h0, ?_⟩
  rw [h0]
  simp [context_used_rate]

/-- C2 witness: the amended theorem applied to a one-line transcript
holding only a user record. -/
theorem c2_amended_witness :
    (⟨0, .jstr "hi".toList⟩ : ScanState).context = 0 ∧
    context_used_rate (⟨0, .jstr "hi".toList⟩ : ScanState).context
      (context_limit "test-200k".toList none) = 0 :=
  c2_amended [.parsed (userRec "hi".toList)] ⟨0, .jstr "hi".toList⟩
    (by intro l hl; rcases List.mem_singleton.mp hl with rfl; rfl) rfl

/-- C3 counterexample: with used_tokens at twice a 200000 limit the fill
count is 40 and the rendered bar holds 40 filled block characters — the
filled segment is NOT clipped to the bar width of 20. -/
theorem c3_counterexample :
    (bar 400000 200000).count '█' = 40 ∧
    ¬ (bar 400000 200000).count '█' ≤ 20 := by decide

/-- C3 (amended): the filled-segment length always equals the fill count
clamped at zero (never negative), the padding length is clamped at zero,
and the filled segment stays within the 20-character bar width only when
used_tokens ≤ limit_tokens; beyond the limit it grows past 20 unclipped. -/
theorem c3_amended (used limit : Int) (h : 0 < limit) :
    (bar used limit).count '█' = (filled_length used limit).toNat ∧
    (bar used limit).count '░' = (bar_length - filled_length used limit).toNat ∧
    (0 ≤ used → used ≤ limit → (bar used limit).count '█' ≤ 20) := by
  have hcount1 : (bar used limit).count '█' = (filled_length used limit).toNat := by
    simp [bar, pyStrMul, List.count_append, List.count_replicate]
  have hcount2 : (bar used limit).count '░' =
      (bar_length - filled_length used limit).toNat := by
    simp [bar, pyStrMul, List.count_append, List.count_replicate]
  refine ⟨hcount1, hcount2, ?_⟩
  intro hu hlim
  rw [hcount1]
  rw [Int.toNat_le]
  unfold filled_length bar_length
  rw [Int.fdiv_eq_ediv _ h.le]
  calc (20 * used) / limit ≤ (20 * limit) / limit :=
        Int.ediv_le_ediv h (by linarith)
    _ = 20 := Int.mul_ediv_cancel 20 (ne_of_gt h)

/-- C3 witness: the amended theorem at used = 150000, limit = 200000. -/
theorem c3_amended_witness :
    (bar 150000 200000).count '█' = (filled_length 150000 200000).toNat ∧
    (bar 150000 200000).count '░' =
      (bar_length - filled_length 150000 200000).toNat ∧
    (0 ≤ (150000 : Int) → (150000 : Int) ≤ 200000 →
      (bar 150000 200000).count '█' ≤ 20) :=
  c3_amended 150000 200000 (by norm_num)

/-- C4 counterexample: a transcript line that is valid JSON but not an
object — a list, a string or a number — makes `obj.get("type")` raise
`AttributeError`, which the scan does not catch (only
`json.JSONDecodeError` is), so the scan raises instead of continuing. -/
theorem c4_counterexample :
    scanTranscript [.parsed (.jarr [])] = .error .attrError ∧
    scanTranscript [.parsed (.jstr "x".toList)] = .error .attrError ∧
    scanTranscript [.parsed (.jnum 3)] = .error .attrError :=
  ⟨rfl, rfl, rfl⟩

/-- C4 (amended): for every transcript whose parsed lines are JSON
objects with well-shaped nested fields (message an object; content a
string, or a list whose dict items carry string text fields; usage an
object with integer token counts — keys may freely be missing, they
default to 0 or empty), the scan never raises; lines parsing to
non-object JSON values raise AttributeError. -/
theorem c4_amended (lines : List TLine)
    (hw : ∀ obj, TLine.parsed obj ∈ lines → WellShaped obj = true) :
    ∃ st, scanTranscript lines = .ok st ∧ isJStr st.lastPrompt = true := by
  unfold scanTranscript
  exact scanRev_wellShaped lines.reverse ⟨0, .jstr []⟩
    (fun o ho => hw o (List.mem_reverse.mp ho)) rfl

/-- C4 witness: the amended theorem on a transcript of objects with
missing keys (a user record without a message, an empty object). -/
theorem c4_amended_witness :
    ∃ st, scanTranscript [.parsed (.jobj [(keyType, .jstr strUser)]),
        .parsed (.jobj [])] = .ok st ∧ isJStr st.lastPrompt = true := by
  apply c4_amended
  intro obj ho
  simp only [List.mem_cons, List.not_mem_nil, or_false, TLine.parsed.injEq] at ho
  rcases ho with rfl | rfl <;> rfl

/-- C5: the context limit is determined solely by the model id — 1000000
when the lowercased id contains "1m", else 200000 when it contains
"200k", else 1000000 — and the context_window value supplied in the
input JSON has no effect on the result. -/
theorem c5_context_limit (mid : Str) (cw1 cw2 : Option Int) :
    context_limit mid cw1 = context_limit mid cw2 ∧
    (containsSub str1m (toLowerStr mid) = true → context_limit mid cw1 = 1000000) ∧
    (context_limit mid cw1 = 200000 ↔
      containsSub str200k (toLowerStr mid) = true ∧
        containsSub str1m (toLowerStr mid) = false) ∧
    (containsSub str1m (toLowerStr mid) = false →
      containsSub str200k (toLowerStr mid) = false →
      context_limit mid cw1 = 1000000) := by
  refine ⟨rfl, ?_, ?_, ?_⟩ <;>
    by_cases h1 : containsSub str1m (toLowerStr mid) = true <;>
    by_cases h2 : containsSub str200k (toLowerStr mid) = true <;>
    simp_all [context_limit]

/-- C5 witness: a 200k model id with an explicit context_window of 5
still resolves to 200000. -/
theorem c5_witness : context_limit "claude-200k".toList (some 5) = 200000 :=
  ((c5_context_limit "claude-200k".toList (some 5) none).2.2.1).mpr (by decide)

/-- C6 counterexample: the most recent record of the transcript is a
non-meta user record (content `[]`) whose extraction yields no text; the
scan then keeps looking and reports the prompt of the OLDER user record
"hello", and the reported prompt is non-empty even though the most
recent non-meta user record yielded nothing. -/
theorem c6_counterexample :
    scanTranscript [.parsed (userRec "hello".toList), .parsed userRecEmptyList] =
      .ok ⟨0, .jstr "hello".toList⟩ ∧
    userStep userRecEmptyList ⟨0, .jstr []⟩ = .ok ⟨0, .jstr []⟩ :=
  ⟨rfl, rfl⟩

/-- C6 (amended): the reported prompt comes from the most recent non-meta
user record whose extraction yields non-empty text: once the scan state
holds a truthy prompt, no older record ever changes it. -/
theorem c6_amended (ls : List TLine) (st st2 : ScanState)
    (hp : truthy st.lastPrompt = true) (h : scanRev ls st = .ok st2) :
    st2.lastPrompt = st.lastPrompt :=
  scanRev_truthy ls st st2 hp h

/-- C6 witness: a captured prompt "hi" survives an older user record
"bye". -/
theorem c6_amended_witness :
    (⟨0, .jstr "hi".toList⟩ : ScanState).lastPrompt = .jstr "hi".toList :=
  c6_amended [.parsed (userRec "bye".toList)] ⟨0, .jstr "hi".toList⟩
    ⟨0, .jstr "hi".toList⟩ rfl rfl

/-- C7: a prompt longer than 50 characters is truncated to exactly its
first 47 characters followed by "..." (total length 50); prompts of
length at most 50 are reported unchanged. -/
theorem c7_truncation (s : Str) (h : 50 < s.length) :
    truncateStep (.jstr s) = .ok (.jstr (s.take 47 ++ strDots)) ∧
    (s.take 47 ++ strDots).length = 50 ∧
    (∀ t : Str, t.length ≤ 50 → truncateStep (.jstr t) = .ok (.jstr t)) := by
  refine ⟨?_, ?_, ?_⟩
  · have hne : s.isEmpty = false := by
      cases s with
      | nil => simp at h
      | cons a s2 => rfl
    have hlen : ((s.length : Int) > 50) := by exact_mod_cast h
    simp [truncateStep, truthy, hne, pyLen, Bind.bind, Except.bind, hlen]
  · have : (s.take 47).length = 47 := by
      rw [List.length_take]
      omega
    simp [this, strDots]
  · intro t ht
    by_cases hte : t.isEmpty
    · simp [truncateStep, truthy, hte]
    · have hlen : ¬ ((t.length : Int) > 50) := by
        push_neg
        exact_mod_cast ht
      simp [truncateStep, truthy, hte, pyLen, Bind.bind, Except.bind, hlen]

/-- C7 witness: the theorem applied to a 51-character prompt. -/
theorem c7_witness :
    truncateStep (.jstr (List.replicate 51 'a')) =
      .ok (.jstr ((List.replicate 51 'a').take 47 ++ strDots)) ∧
    ((List.replicate 51 'a').take 47 ++ strDots).length = 50 ∧
    (∀ t : Str, t.length ≤ 50 → truncateStep (.jstr t) = .ok (.jstr t)) :=
  c7_truncation (List.replicate 51 'a') (by simp)

/-- C8 counterexample: the claim covers a transcript that is "missing or
otherwise unreadable", but the only handler is
`except FileNotFoundError`: on a transcript that exists and cannot be
read — `PermissionError`, `IsADirectoryError` from `open`, or
`UnicodeDecodeError` from `readlines` — the exception propagates
uncaught, the pipeline errors out, and the script terminates abnormally
before any status line is printed. -/
theorem c8_counterexample :
    renderCore "test-200k".toList none .unreadable = .error .osError ∧
    runScan .unreadable = .error .osError :=
  ⟨rfl, rfl⟩

/-- C8 (amended): a MISSING transcript does not abort the script — the
`FileNotFoundError` is swallowed, the scan yields zero usage, the
percentage is 0, a full-width empty bar is rendered, the prompt falls
back to the literal "no recent prompt" and the status line is still
produced; a present-but-unreadable transcript instead raises uncaught
and nothing is printed. -/
theorem c8_amended (mid : Str) (cw : Option Int) :
    renderCore mid cw .missing =
      .ok (0, 0, List.replicate 20 '░', .jstr strNoPrompt) := by
  have hrate : context_used_rate 0 (context_limit mid cw) = 0 := by
    simp [context_used_rate]
  have hbar : bar 0 (context_limit mid cw) = List.replicate 20 '░' := by
    simp [bar, filled_length, bar_length, pyStrMul, Int.zero_fdiv]
  simp [renderCore, runScan, hrate, hbar, final_prompt, truthy]

/-- C9 counterexample: a fresh cache file whose stored content carries
surrounding whitespace is NOT returned verbatim: the script returns the
stripped text. -/
theorem c9_counterexample :
    (get_version_status true 0 100 " current ".toList "1.0.0".toList none).1 =
      strCurrent ∧
    (get_version_status true 0 100 " current ".toList "1.0.0".toList none).1 ≠
      " current ".toList := by
  have h : get_version_status true 0 100 " current ".toList "1.0.0".toList none =
      (pyStrip " current ".toList, false) := by
    unfold get_version_status
    rw [if_pos ⟨rfl, by norm_num⟩]
  rw [h]
  exact ⟨by decide, by decide⟩

/-- C9 (amended): whenever the cache file exists and its modification
time is within 3600 seconds of now, the script returns the cache file's
stored content with surrounding whitespace stripped (hence verbatim for
the whitespace-free "current"/"outdated" values it writes itself) and
the network path is not taken. -/
theorem c9_amended (ce : Bool) (mtime now : ℚ) (content cv : Str)
    (resp : Option JVal) (h1 : ce = true) (h2 : now - mtime < 3600) :
    get_version_status ce mtime now content cv resp = (pyStrip content, false) := by
  subst h1
  simp [get_version_status, h2]

/-- C9 witness: a fresh cache storing "current" is returned verbatim with
no network call. -/
theorem c9_amended_witness :
    get_version_status true 0 100 strCurrent "1.0.0".toList none =
      (strCurrent, false) := by
  have h := c9_amended true 0 100 strCurrent "1.0.0".toList none rfl (by norm_num)
  rw [h]
  rfl

/-- C10 counterexample: the claim reads "after stripping a leading v",
but the script's `lstrip("v")` strips every leading `v`.  With current
version "vv1.0.0" and fetched tag "v2.0.0" the script answers
"outdated", while under the claim's reading the current version parses
as "v1.0.0", whose first component is not numeric, so the comparison
cannot succeed and the result would be "current". -/
theorem c10_counterexample :
    check_claude_version "vv1.0.0".toList
      (some (.jobj [(keyTagName, .jstr "v2.0.0".toList)])) = strOutdated ∧
    version_to_tuple (stripOneV "vv1.0.0".toList) = none :=
  ⟨rfl, rfl⟩

/-- C10 (amended): check_claude_version returns "outdated" exactly when
the fetch succeeded with an object response whose tag_name is a string
that is nonempty after stripping ALL leading "v" characters, both the
current version and the tag (after stripping all leading "v"s) parse
into integer tuples of their first at-most-three dot-components, and the
current tuple compares lexicographically less than the tag tuple; in
every other case — and in particular on every fetch or parse failure —
it returns "current". -/
theorem c10_amended (cv : Str) (resp : Option JVal) :
    (check_claude_version cv resp = strOutdated ↔
      ∃ fs t ct lt, resp = some (.jobj fs) ∧
        jGetD fs keyTagName (.jstr []) = .jstr t ∧
        (lstripV t).isEmpty = false ∧
        version_to_tuple (lstripV cv) = some ct ∧
        version_to_tuple (lstripV t) = some lt ∧
        tupLt ct lt = true) ∧
    (check_claude_version cv resp = strOutdated ∨
      check_claude_version cv resp = strCurrent) := by
  cases resp with
  | none =>
    refine ⟨?_, Or.inr rfl⟩
    constructor
    · intro h
      exact absurd (show strCurrent = strOutdated from h) (by decide)
    · rintro ⟨fs, t, ct, lt, h1, -⟩; cases h1
  | some data =>
    cases data with
    | jobj fs =>
      simp only [check_claude_version]
      cases htag : jGetD fs keyTagName (.jstr []) with
      | jstr t =>
        dsimp only
        by_cases hemp : (lstripV t).isEmpty = true
        · rw [if_pos hemp]
          refine ⟨?_, Or.inr rfl⟩
          constructor
          · intro h
            exact absurd h (by decide)
          · rintro ⟨fs2, t2, ct2, lt2, h1, h2, h3, -⟩
            simp only [Option.some.injEq, JVal.jobj.injEq] at h1
            subst h1
            rw [htag] at h2
            simp only [JVal.jstr.injEq] at h2
            subst h2
            rw [hemp] at h3
            cases h3
        · rw [if_neg hemp]
          have hempf : (lstripV t).isEmpty = false := by
            simpa [Bool.not_eq_true] using hemp
          cases hct : version_to_tuple (lstripV cv) with
          | none =>
            refine ⟨?_, Or.inr rfl⟩
            constructor
            · intro h
              exact absurd (show strCurrent = strOutdated from h) (by decide)
            · rintro ⟨fs2, t2, ct2, lt2, h1, h2, h3, h4, -⟩
              cases h4
          | some ct =>
            cases hlt : version_to_tuple (lstripV t) with
            | none =>
              refine ⟨?_, Or.inr rfl⟩
              constructor
              · intro h
                exact absurd (show strCurrent = strOutdated from h) (by decide)
              · rintro ⟨fs2, t2, ct2, lt2, h1, h2, h3, h4, h5, -⟩
                simp only [Option.some.injEq, JVal.jobj.injEq] at h1
                subst h1
                rw [htag] at h2
                simp only [JVal.jstr.injEq] at h2
                subst h2
                rw [hlt] at h5
                cases h5
            | some lt =>
              dsimp only
              by_cases hcmp : tupLt ct lt = true
              · rw [if_pos hcmp]
                refine ⟨?_, Or.inl rfl⟩
                constructor
                · intro h
                  exact ⟨fs, t, ct, lt, rfl, htag, hempf, rfl, hlt, hcmp⟩
                · intro h
                  rfl
              · rw [if_neg hcmp]
                refine ⟨?_, Or.inr rfl⟩
                constructor
                · intro h
                  exact absurd h (by decide)
                · rintro ⟨fs2, t2, ct2, lt2, h1, h2, h3, h4, h5, h6⟩
                  simp only [Option.some.injEq, JVal.jobj.injEq] at h1
                  subst h1
                  rw [htag] at h2
                  simp only [JVal.jstr.injEq] at h2
                  subst h2
                  simp only [Option.some.injEq] at h4
                  subst h4
                  rw [hlt] at h5
                  simp only [Option.some.injEq] at h5
                  subst h5
                  exact absurd h6 hcmp
      | jnull =>
        refine ⟨?_, Or.inr rfl⟩
        constructor
        · intro h
          exact absurd (show strCurrent = strOutdated from h) (by decide)
        · rintro ⟨fs2, t2, ct2, lt2, h1, h2, -⟩
          simp only [Option.some.injEq, JVal.jobj.injEq] at h1
          subst h1
          rw [htag] at h2
          cases h2
      | jbool b =>
        refine ⟨?_, Or.inr rfl⟩
        constructor
        · intro h
          exact absurd (show strCurrent = strOutdated from h) (by decide)
        · rintro ⟨fs2, t2, ct2, lt2, h1, h2, -⟩
          simp only [Option.some.injEq, JVal.jobj.injEq] at h1
          subst h1
          rw [htag] at h2
          cases h2
      | jnum n =>
        refine ⟨?_, Or.inr rfl⟩
        constructor
        · intro h
          exact absurd (show strCurrent = strOutdated from h) (by decide)
        · rintro ⟨fs2, t2, ct2, lt2, h1, h2, -⟩
          simp only [Option.some.injEq, JVal.jobj.injEq] at h1
          subst h1
          rw [htag] at h2
          cases h2
      | jarr xs =>
        refine ⟨?_, Or.inr rfl⟩
        constructor
        · intro h
          exact absurd (show strCurrent = strOutdated from h) (by decide)
        · rintro ⟨fs2, t2, ct2, lt2, h1, h2, -⟩
          simp only [Option.some.injEq, JVal.jobj.injEq] at h1
          subst h1
          rw [htag] at h2
          cases h2
      | jobj fs3 =>
        refine ⟨?_, Or.inr rfl⟩
        constructor
        · intro h
          exact absurd (show strCurrent = strOutdated from h) (by decide)
        · rintro ⟨fs2, t2, ct2, lt2, h1, h2, -⟩
          simp only [Option.some.injEq, JVal.jobj.injEq] at h1
          subst h1
          rw [htag] at h2
          cases h2
    | jnull =>
      refine ⟨?_, Or.inr rfl⟩
      constructor
      · intro h
        exact absurd (show strCurrent = strOutdated from h) (by decide)
      · rintro ⟨fs2, t2, ct2, lt2, h1, -⟩; cases h1
    | jbool b =>
      refine ⟨?_, Or.inr rfl⟩
      constructor
      · intro h
        exact absurd (show strCurrent = strOutdated from h) (by decide)
      · rintro ⟨fs2, t2, ct2, lt2, h1, -⟩; cases h1
    | jnum n =>
      refine ⟨?_, Or.inr rfl⟩
      constructor
      · intro h
        exact absurd (show strCurrent = strOutdated from h) (by decide)
      · rintro ⟨fs2, t2, ct2, lt2, h1, -⟩; cases h1
    | jstr s =>
      refine ⟨?_, Or.inr rfl⟩
      constructor
      · intro h
        exact absurd (show strCurrent = strOutdated from h) (by decide)
      · rintro ⟨fs2, t2, ct2, lt2, h1, -⟩; cases h1
    | jarr xs =>
      refine ⟨?_, Or.inr rfl⟩
      constructor
      · intro h
        exact absurd (show strCurrent = strOutdated from h) (by decide)
      · rintro ⟨fs2, t2, ct2, lt2, h1, -⟩; cases h1

/-- C10 witness: current version 1.0.0 against fetched tag v1.2.3 is
reported outdated, via the amended characterization. -/
theorem c10_amended_witness :
    check_claude_version "1.0.0".toList
      (some (.jobj [(keyTagName, .jstr "v1.2.3".toList)])) = strOutdated :=
  ((c10_amended "1.0.0".toList
      (some (.jobj [(keyTagName, .jstr "v1.2.3".toList)]))).1).mpr
    ⟨[(keyTagName, .jstr "v1.2.3".toList)], "v1.2.3".toList, [1, 0, 0], [1, 2, 3],
      rfl, rfl, rfl, rfl, rfl, rfl⟩

end StatusLine
